import Mathlib

/-!
Verification of the NotionTaskMigrator core against its specification.

This development shallowly embeds the repository's core data model and
algorithms as executable Lean definitions:

* the Link Store (`services/link_store.js`, merging variant): a key/value
  ledger of `LinkRecord`s keyed by `sourceId`, with a read-before-write
  merge of the `history` field on save;
* the `Link` model class (`models/Link.js`);
* the delta-sync per-record state machine (`delta_sync/sync_task.js`,
  found inside `src/delta_sync/filter_eligible.js`) together with
  `filterEligible` and the orchestrator loop of `delta_sync/index.js`;
* the orphan sweep (`delta_sync/cleanup_orphans.js`);
* the media migrator (`services/media_migrator.js`): URL-keyed download
  cache, sha256-keyed upload cache, manifest loading, direct and
  multi-part upload;
* the `delta_sync.js` main loop with its repeated-failure circuit
  breaker, and the `migrate_tasks.js` main loop with its SkipPage
  handling.

Timestamps are modelled as natural numbers (milliseconds since epoch,
as compared by JavaScript `Date` objects).  File bytes are lists of
naturals and SHA-256 is an abstract hash parameter.  JavaScript `Map`
objects are modelled with their internal entry list kept separate from
ordinary object properties, because `Object.assign` writes only the
latter while `Map.has`/`Map.get` read only the former.
-/

namespace NTM

/-- One entry of a LinkRecord's `history` array:
`(targetId, syncedAt, deletedAt, notes)` as pushed by the sync loops. -/
structure HistEntry where
  htargetId : Option String
  hsyncedAt : Option Nat
  deletedAt : Option Nat
  hnotes : String
deriving DecidableEq

/-- The persisted JSON shape of a LinkRecord (one file per
`(type, sourceId)`).  Fields that JavaScript may leave `null`/absent are
`Option`s; in particular `history = none` models a record that omits the
`history` field (or carries `null`), exactly the situations in which both
`prevData.history || []` and `link.history ?? prevHistory` in
`services/link_store.js` fall back. -/
structure LinkJson where
  sourceId : String
  targetId : Option String
  status : String
  syncedAt : Option Nat
  sourceDbId : Option String
  targetDbId : Option String
  ltype : Option String
  notes : Option String
  history : Option (List HistEntry)
  archivedAt : Option Nat
deriving DecidableEq

/-- The on-disk partition of the Content Store for one `type`:
an association list from `sourceId` (the file name) to the stored JSON. -/
abbrev Store : Type := List (String × LinkJson)

/-- Point lookup of the stored JSON for a `sourceId` (reading the file
`<sourceId>.json`), `none` when the file does not exist. -/
def Store.lookup : Store → String → Option LinkJson
  | [], _ => none
  | (k, v) :: rest, key => if k = key then some v else Store.lookup rest key

/-- Overwrite (or create) the file for a `sourceId`: a save fully
replaces the prior content for that key. -/
def Store.set : Store → String → LinkJson → Store
  | [], key, v => [(key, v)]
  | (k, w) :: rest, key, v =>
      if k = key then (k, v) :: rest else (k, w) :: Store.set rest key v

theorem Store.lookup_set_same (s : Store) (k : String) (v : LinkJson) :
    (s.set k v).lookup k = some v := by
  induction s with
  | nil => simp [Store.set, Store.lookup]
  | cons hd tl ih =>
      obtain ⟨k2, w⟩ := hd
      by_cases h : k2 = k
      · simp [Store.set, Store.lookup, h]
      · simp [Store.set, Store.lookup, h, ih]

theorem Store.lookup_set_other (s : Store) (k k2 : String) (v : LinkJson)
    (h : k2 ≠ k) : (s.set k v).lookup k2 = s.lookup k2 := by
  have hks : k ≠ k2 := Ne.symm h
  induction s with
  | nil => simp [Store.set, Store.lookup, hks]
  | cons hd tl ih =>
      obtain ⟨k3, w⟩ := hd
      by_cases h3 : k3 = k
      · subst h3
        simp [Store.set, Store.lookup, hks]
      · by_cases h4 : k3 = k2 <;> simp [Store.set, Store.lookup, h, h3, h4, ih]

/-- `LinkStore.save` (merging variant, `services/link_store.js` lines
212-235): read the existing file, take `prevData.history || []`
(empty when the file is missing, unparsable, or has no `history`), then
write `{ ...link, history: link.history ?? prevHistory }`. -/
def saveMerging (s : Store) (link : LinkJson) : Store :=
  let prevHistory : List HistEntry :=
    match s.lookup link.sourceId with
    | some prev => prev.history.getD []
    | none => []
  let merged : LinkJson := { link with history := some (link.history.getD prevHistory) }
  s.set link.sourceId merged

theorem saveMerging_lookup_same (s : Store) (link : LinkJson) :
    (saveMerging s link).lookup link.sourceId =
      some { link with history := some (link.history.getD
        (match s.lookup link.sourceId with
          | some prev => prev.history.getD []
          | none => [])) } := by
  simp [saveMerging, Store.lookup_set_same]

/-- When the incoming record carries a concrete `history` array, the
merge is the identity on it and the save is a plain overwrite. -/
theorem saveMerging_of_some (s : Store) (link : LinkJson) (h : List HistEntry)
    (hh : link.history = some h) :
    saveMerging s link = s.set link.sourceId link := by
  simp only [saveMerging, hh, Option.getD_some]
  rw [← hh]

/-- Constructor arguments of `models/Link.js`.  `none` models an
omitted (undefined) argument, for which the JavaScript default parameter
value applies. -/
structure LinkCtorArgs where
  csourceId : String
  ctargetId : Option String
  cstatus : Option String
  csyncedAt : Option Nat
  cnotes : Option String
  chistory : Option (List HistEntry)
deriving DecidableEq

/-- A constructed `Link` instance: defaults applied
(`status = 'success'`, `notes = ''`, `history = []`). -/
structure LinkObj where
  osourceId : String
  otargetId : Option String
  ostatus : String
  osyncedAt : Option Nat
  onotes : String
  ohistory : List HistEntry
deriving DecidableEq

/-- The `Link` constructor (`models/Link.js` lines 24-60). -/
def mkLink (a : LinkCtorArgs) : LinkObj where
  osourceId := a.csourceId
  otargetId := a.ctargetId
  ostatus := a.cstatus.getD ("success")
  osyncedAt := a.csyncedAt
  onotes := a.cnotes.getD ("")
  ohistory := a.chistory.getD []

/-- JSON.stringify of a `Link` instance: every field is present,
in particular `history` is always a concrete array. -/
def LinkObj.toJson (l : LinkObj) : LinkJson where
  sourceId := l.osourceId
  targetId := l.otargetId
  status := l.ostatus
  syncedAt := l.osyncedAt
  sourceDbId := none
  targetDbId := none
  ltype := none
  notes := some l.onotes
  history := some l.ohistory
  archivedAt := none

/-- Claim C5: for every key that already has a persisted LinkRecord with a
non-empty history, calling save with a record that omits the history field
stores a record whose history equals the previously persisted history
(read-before-write merge); all other fields of the stored record come from
the incoming record. -/
theorem c5_save_merges_history (s : Store) (prev link : LinkJson)
    (h : List HistEntry)
    (hprev : s.lookup link.sourceId = some prev)
    (hhist : prev.history = some h)
    (hne : h ≠ [])
    (homit : link.history = none) :
    (saveMerging s link).lookup link.sourceId =
      some { link with history := some h } := by
  simp [saveMerging, hprev, hhist, homit, Store.lookup_set_same]

def c5DemoPrev : LinkJson :=
  ⟨("s1"), some ("G1"), ("success"), some 10, none, none, none, none,
    some [⟨some ("G0"), some 5, some 6, ("Replaced due to drift")⟩], none⟩

def c5DemoIncoming : LinkJson :=
  ⟨("s1"), some ("G2"), ("success"), some 20, none, none, none, none, none, none⟩

theorem c5_save_merges_history_witness :
    (saveMerging [(("s1"), c5DemoPrev)] c5DemoIncoming).lookup ("s1") =
      some { c5DemoIncoming with
        history := some [⟨some ("G0"), some 5, some 6, ("Replaced due to drift")⟩] } :=
  c5_save_merges_history [(("s1"), c5DemoPrev)] c5DemoPrev c5DemoIncoming
    [⟨some ("G0"), some 5, some 6, ("Replaced due to drift")⟩]
    (by decide) (by decide) (by decide) (by decide)

/-- Claim C10 (implicit): the save merge keys on null/undefined only —
calling save with history explicitly set to an empty array overwrites any
previously persisted non-empty history with the empty array; and because
the Link class constructor defaults history to `[]`, saving a Link
instance always stores that instance's own history list, never the
on-disk one. -/
theorem c10_empty_history_overwrites_and_link_instances_win :
    (∀ (s : Store) (prev link : LinkJson) (h : List HistEntry),
      s.lookup link.sourceId = some prev →
      prev.history = some h → h ≠ [] →
      link.history = some [] →
      (saveMerging s link).lookup link.sourceId =
        some { link with history := some [] }) ∧
    (∀ (s : Store) (a : LinkCtorArgs),
      (saveMerging s (mkLink a).toJson).lookup (mkLink a).toJson.sourceId =
        some (mkLink a).toJson) := by
  constructor
  · intro s prev link h hprev hh hne hempty
    simp [saveMerging, hempty, Store.lookup_set_same]
  · intro s a
    have h1 : (mkLink a).toJson.history = some (mkLink a).ohistory := rfl
    rw [saveMerging_of_some s (mkLink a).toJson (mkLink a).ohistory h1]
    rw [Store.lookup_set_same]

def c10DemoArgs : LinkCtorArgs := ⟨("s2"), some ("T2"), none, some 7, none, none⟩

theorem c10_empty_history_overwrites_and_link_instances_win_witness :
    ((saveMerging [(("s1"), c5DemoPrev)]
        { c5DemoIncoming with history := some [] }).lookup ("s1") =
      some { c5DemoIncoming with history := some [] }) ∧
    ((saveMerging [(("s2"), c5DemoPrev)] (mkLink c10DemoArgs).toJson).lookup
        (("s2")) = some (mkLink c10DemoArgs).toJson) := by
  constructor
  · exact c10_empty_history_overwrites_and_link_instances_win.1
      [(("s1"), c5DemoPrev)] c5DemoPrev
      { c5DemoIncoming with history := some [] }
      [⟨some ("G0"), some 5, some 6, ("Replaced due to drift")⟩]
      (by decide) (by decide) (by decide) (by decide)
  · exact c10_empty_history_overwrites_and_link_instances_win.2
      [(("s2"), c5DemoPrev)] c10DemoArgs

/-! ## Delta-sync per-record state machine

`delta_sync/sync_task.js` (the second document inside
`src/delta_sync/filter_eligible.js`): syncs one page — needs-sync check,
transform, write, link-store save, archive of the prior target, and the
catch-block failure handling — together with `filter_eligible.js` and the
orchestrator `delta_sync/index.js` / `cleanup_orphans.js`
(`src/unnamed/part_004`). -/

/-- A source page as consumed by the reconciler:
its id and `last_edited_time` (milliseconds since epoch). -/
structure Page where
  pid : String
  lastEdited : Nat
deriving DecidableEq

/-- Runtime configuration of a delta-sync run. -/
structure SyncCtx where
  runtimeStart : Nat
  srcDb : String
  tgtDb : String
  linkType : String
  force : Bool
  dryRun : Bool
  strictMode : Bool
  onlyId : Option String
deriving DecidableEq

/-- The field normalization applied by `linkStore.load` (merging variant):
the raw JSON is passed through the `Link` constructor with
`history: data.history || []` and `notes: data.notes || ''`; fields the
`Link` class does not declare (such as `archivedAt`) are dropped. -/
def normLink (d : LinkJson) : LinkJson :=
  { d with history := some (d.history.getD []),
           notes := some (d.notes.getD ("")),
           archivedAt := none }

/-- `linkStore.load(sourceId, LINK_TYPE).catch(() => null)`. -/
def loadNorm (s : Store) (k : String) : Option LinkJson :=
  (s.lookup k).map normLink

/-- `new Date(existing?.syncedAt || 0)` as a number. -/
def syncedAtOf : Option LinkJson → Nat
  | some l => l.syncedAt.getD 0
  | none => 0

/-- The eligibility test of both `filterEligible` and `syncTask`:
`force || !existing || lastEdited > new Date(existing.syncedAt || 0)`. -/
def needsSyncFlag (force : Bool) (e : Option LinkJson) (lastEdited : Nat) : Bool :=
  force || e.isNone || decide (lastEdited > syncedAtOf e)

/-- Outcome of `writeToDBB`: either the created page, or a throw.  When
`writeToDBB` throws, `createdInside` lists ids of pages it had already
created internally (e.g. `notion.pages.create` succeeded but a later
`blocks.children.append` threw); those ids never reach the caller. -/
inductive WriteOut where
  | ok (pageId : String)
  | thrown (msg : String) (createdInside : List String)
deriving DecidableEq

/-- Per-page behavior of the external collaborators during one
`syncTask` call. -/
structure SyncOracle where
  transformRes : Except String Unit
  writeRes : WriteOut
  archiveOk : Bool
  archErrMsg : String
  nowMs : Nat

/-- The per-record outcome reported by `syncTask` (`threw` models the
strict-mode rethrow). -/
inductive SyncStatus where
  | skipped
  | updated
  | failed
  | threw (msg : String)
deriving DecidableEq

/-- Observable side effects of one `syncTask` call: link-store saves in
order, `archivePage` calls in order, and target pages created inside a
throwing `writeToDBB` whose ids were lost (never archived, never saved). -/
structure SyncTrace where
  saves : List LinkJson
  archives : List String
  leaked : List String
deriving DecidableEq

structure SyncOut where
  status : SyncStatus
  store : Store
  trace : SyncTrace
deriving DecidableEq

/-- `[...(existing?.history || [])]`. -/
def histBase : Option LinkJson → List HistEntry
  | some l => l.history.getD []
  | none => []

/-- The record persisted by the catch block of `syncTask`:
`targetId: newPage?.id || null`, `status: 'fail'`,
`syncedAt: runtimeStart`, `notes: err.message`,
`history: existing?.history || []`. -/
def syncFailRecord (ctx : SyncCtx) (pid : String) (newPage : Option String)
    (msg : String) (e : Option LinkJson) : LinkJson where
  sourceId := pid
  targetId := newPage
  status := ("fail")
  syncedAt := some ctx.runtimeStart
  sourceDbId := some ctx.srcDb
  targetDbId := some ctx.tgtDb
  ltype := some ctx.linkType
  notes := some msg
  history := some (histBase e)
  archivedAt := none

/-- The record persisted by the success path of `syncTask` (no `notes`
field in the saved object literal). -/
def syncSuccessRecord (ctx : SyncCtx) (pid gid : String)
    (hist : List HistEntry) : LinkJson where
  sourceId := pid
  targetId := some gid
  status := ("success")
  syncedAt := some ctx.runtimeStart
  sourceDbId := some ctx.srcDb
  targetDbId := some ctx.tgtDb
  ltype := some ctx.linkType
  notes := none
  history := some hist
  archivedAt := none

/-- `history[history.length - 1].deletedAt = new Date().toISOString()`. -/
def setLastDeleted : List HistEntry → Nat → List HistEntry
  | [], _ => []
  | [x], n => [{ x with deletedAt := some n }]
  | x :: y :: xs, n => x :: setLastDeleted (y :: xs) n

/-- The catch block of `syncTask`: best-effort rollback
(`if (newPage?.id) await archivePage(newPage.id).catch(() => {})`),
persist the fail record, rethrow in strict mode. -/
def syncCatch (ctx : SyncCtx) (pid : String) (e : Option LinkJson)
    (newPage : Option String) (msg : String) (leaked : List String)
    (s : Store) (archivesSoFar : List String)
    (savesSoFar : List LinkJson) : SyncOut :=
  let archives2 := archivesSoFar ++ (match newPage with
    | some g => [g]
    | none => [])
  let failRec := syncFailRecord ctx pid newPage msg e
  { status := if ctx.strictMode then .threw msg else .failed
    store := saveMerging s failRec
    trace := ⟨savesSoFar ++ [failRec], archives2, leaked⟩ }

/-- `syncTask(page, ctx, taskMap)` — the per-record state machine of
`delta_sync/sync_task.js`. -/
def syncTask (ctx : SyncCtx) (o : SyncOracle) (s : Store) (page : Page) : SyncOut :=
  let existing := loadNorm s page.pid
  let needs := needsSyncFlag ctx.force existing page.lastEdited
  if needs = false then { status := .skipped, store := s, trace := ⟨[], [], []⟩ }
  else if ctx.dryRun then { status := .skipped, store := s, trace := ⟨[], [], []⟩ }
  else
    match o.transformRes with
    | .error msg => syncCatch ctx page.pid existing none msg [] s [] []
    | .ok _ =>
      match o.writeRes with
      | .thrown msg created => syncCatch ctx page.pid existing none msg created s [] []
      | .ok gid =>
        let hist1 := histBase existing ++ (match existing with
          | some e => match e.targetId with
            | some t => [⟨some t, e.syncedAt, none, ("Replaced due to drift")⟩]
            | none => []
          | none => [])
        let rec1 := syncSuccessRecord ctx page.pid gid hist1
        let s1 := saveMerging s rec1
        match existing with
        | none => { status := .updated, store := s1, trace := ⟨[rec1], [], []⟩ }
        | some e =>
          match e.targetId with
          | none => { status := .updated, store := s1, trace := ⟨[rec1], [], []⟩ }
          | some tgt =>
            if o.archiveOk then
              let hist2 := setLastDeleted hist1 o.nowMs
              let rec2 := { e with targetId := some gid, history := some hist2 }
              { status := .updated
                store := saveMerging s1 rec2
                trace := ⟨[rec1, rec2], [tgt], []⟩ }
            else
              syncCatch ctx page.pid existing (some gid) o.archErrMsg [] s1 [tgt] [rec1]

/-- `filterEligible(allPages, config, linkStore, LINK_TYPE, logger)`:
returns the pages that pass the onlyId filter and the needs-sync test. -/
def filterEligible (force : Bool) (onlyId : Option String) (s : Store)
    (pages : List Page) : List Page :=
  pages.filter fun p =>
    (match onlyId with
      | some i => p.pid = i
      | none => true) &&
    needsSyncFlag force (loadNorm s p.pid) p.lastEdited

/-! ## Orphan sweep -/

/-- Modelled from the spec: `loadAll(type) → LinkRecord[]` ("full
partition scan, used for orphan detection").  `loadAll` is called by
`cleanup_orphans.js` but its declaration is absent from
`services/link_store.js` in the sources; per the spec's `load` contract,
each record is reconstructed in full with `history` an empty array when
absent, here via the same `Link`-constructor normalization as `load`. -/
def loadAll (s : Store) : List LinkJson :=
  s.map fun kv => normLink kv.2

/-- `link.status === 'success' && !existingSourceIds.has(link.sourceId)`. -/
def orphanPred (srcIds : List String) (l : LinkJson) : Bool :=
  l.status = ("success") && !(srcIds.contains l.sourceId)

/-- `{ ...link, status: 'archived', archivedAt: ..., notes: 'Archived due
to missing source' }`. -/
def archivedVersion (l : LinkJson) (now : Nat) : LinkJson :=
  { l with status := ("archived"), archivedAt := some now,
           notes := some ("Archived due to missing source") }

structure CleanupOut where
  store : Store
  archives : List (Option String)
deriving DecidableEq

/-- The per-orphan loop of `cleanup_orphans.js`: call `archivePage` on
the orphan's `targetId`, then save the archived record; when the archive
call throws, the save is skipped and the loop continues. -/
def cleanupLoop (archiveOk : Option String → Bool) (now : Nat) :
    List LinkJson → Store → List (Option String) → CleanupOut
  | [], s, arch => ⟨s, arch⟩
  | l :: rest, s, arch =>
      if archiveOk l.targetId then
        cleanupLoop archiveOk now rest (saveMerging s (archivedVersion l now))
          (arch ++ [l.targetId])
      else
        cleanupLoop archiveOk now rest s (arch ++ [l.targetId])

/-- `cleanupOrphans(allPages, linkStore, LINK_TYPE, logger)`. -/
def cleanupOrphans (archiveOk : Option String → Bool) (now : Nat)
    (srcIds : List String) (s : Store) : CleanupOut :=
  cleanupLoop archiveOk now ((loadAll s).filter (orphanPred srcIds)) s []

/-! ## Run orchestrator (`delta_sync/index.js`) -/

structure RunOut where
  updated : Nat
  skippedCount : Nat
  failedCount : Nat
  aborted : Bool
  store : Store
deriving DecidableEq

/-- The sequential sync loop of `delta_sync/index.js` over the eligible
pages, tallying `updated`/`skipped`/`failed` from the `syncTask`
results; a strict-mode rethrow aborts the run. -/
def runLoopSync (ctx : SyncCtx) (oracleOf : String → SyncOracle) :
    List Page → Store → Nat → Nat → Nat → (Store × Nat × Nat × Nat × Bool)
  | [], s, u, k, f => (s, u, k, f, false)
  | p :: rest, s, u, k, f =>
      let out := syncTask ctx (oracleOf p.pid) s p
      match out.status with
      | .updated => runLoopSync ctx oracleOf rest out.store (u + 1) k f
      | .skipped => runLoopSync ctx oracleOf rest out.store u (k + 1) f
      | .failed => runLoopSync ctx oracleOf rest out.store u k (f + 1)
      | .threw _ => (out.store, u, k, f, true)

/-- One full Reconciler run: fetch (the pages argument), filter
eligibility, sync each eligible page sequentially, then the orphan
sweep.  The reported tally is taken from the per-page results. -/
def runReconciler (ctx : SyncCtx) (oracleOf : String → SyncOracle)
    (cleanupArchiveOk : Option String → Bool) (cleanupNow : Nat)
    (pages : List Page) (s : Store) : RunOut :=
  let elig := filterEligible ctx.force ctx.onlyId s pages
  match runLoopSync ctx oracleOf elig s 0 0 0 with
  | (s1, u, k, f, true) => ⟨u, k, f, true, s1⟩
  | (s1, u, k, f, false) =>
      let cl := cleanupOrphans cleanupArchiveOk cleanupNow (pages.map (·.pid)) s1
      ⟨u, k, f, false, cl.store⟩

/-! ## Claim C2 — idempotency of consecutive runs -/

def c2Ctx : SyncCtx := ⟨200, ("A"), ("B"), ("t"), false, false, false, none⟩

def c2Prior : LinkJson :=
  ⟨("p1"), some ("G1"), ("success"), some 50, some ("A"), some ("B")
    , some ("t"), none, some [], none⟩

def c2Store : Store := [(("p1"), c2Prior)]

def c2Pages : List Page := [⟨("p1"), 100⟩]

def c2Oracle1 : String → SyncOracle := fun _ => ⟨.ok (), .ok ("G2"), true, (""), 210⟩

def c2Oracle2 : String → SyncOracle := fun _ => ⟨.ok (), .ok ("G3"), true, (""), 310⟩

/-- Claim C2 stated: for every source set left unchanged between two
consecutive Reconciler runs with force=false, the second run reports
updated=0, because the syncedAt persisted by the first run's successful
sync is not earlier than the record's last-modified timestamp.

This is false on the code: after a successful replace, `syncTask`
re-saves `{ ...existing, targetId: newPage.id, history }` — spreading the
PRIOR record — so the persisted `syncedAt` reverts to the pre-run value
(50 here, not the run's 200), and the unchanged record (last edited at
100) is re-synced by the second run, which reports updated=1.  The
sibling loop in `delta_sync.js` re-saves the NEW link instead, showing
the intent; the spread of `existing` is a slip, so this is a code bug,
not a spec overclaim. -/
theorem c2_second_run_updates_again :
    ((runReconciler c2Ctx c2Oracle1 (fun _ => true) 220 c2Pages
        c2Store).store.lookup ("p1")).map (fun l => l.syncedAt) =
      some (some 50) ∧
    (runReconciler c2Ctx c2Oracle2 (fun _ => true) 320 c2Pages
      (runReconciler c2Ctx c2Oracle1 (fun _ => true) 220 c2Pages
        c2Store).store).updated = 1 := by
  decide

/-! ## Claim C4 — rollback after a failing write -/

/-- Claim C4 (amended): for every source record whose sync attempt throws
inside the write step after target pages were partially created, the
Reconciler performs NO archive call — the partially created ids never
reach the caller (`newPage` is still null), so they leak — and persists a
LinkRecord with status=fail, targetId=null, notes equal to the error
message, and a history identical to the prior record's history. -/
theorem c4_write_throw_rollback_amended (ctx : SyncCtx) (o : SyncOracle)
    (s : Store) (page : Page) (msg : String) (created : List String)
    (hneeds : needsSyncFlag ctx.force (loadNorm s page.pid) page.lastEdited = true)
    (hdry : ctx.dryRun = false)
    (htr : o.transformRes = .ok ())
    (hwr : o.writeRes = .thrown msg created) :
    (syncTask ctx o s page).trace.archives = [] ∧
    (syncTask ctx o s page).trace.leaked = created ∧
    (syncTask ctx o s page).store.lookup page.pid =
      some (syncFailRecord ctx page.pid none msg (loadNorm s page.pid)) ∧
    (syncFailRecord ctx page.pid none msg (loadNorm s page.pid)).targetId = none ∧
    (syncFailRecord ctx page.pid none msg (loadNorm s page.pid)).notes = some msg ∧
    (syncFailRecord ctx page.pid none msg (loadNorm s page.pid)).history =
      some (histBase (loadNorm s page.pid)) := by
  have hrec : (syncFailRecord ctx page.pid none msg (loadNorm s page.pid)).history =
      some (histBase (loadNorm s page.pid)) := rfl
  have hkey : (syncFailRecord ctx page.pid none msg (loadNorm s page.pid)).sourceId =
      page.pid := rfl
  refine ⟨?_, ?_, ?_, rfl, rfl, rfl⟩ <;>
    · simp only [syncTask, hneeds, hdry, htr, hwr, syncCatch]
      simp [saveMerging_of_some _ _ _ hrec, hkey, Store.lookup_set_same]

def c4Ctx : SyncCtx := ⟨200, ("A"), ("B"), ("t"), false, false, false, none⟩

def c4Prior : LinkJson :=
  ⟨("p1"), some ("G1"), ("success"), some 50, some ("A"), some ("B")
    , some ("t"), none, some [⟨some ("G0"), some 5, some 6, ("old")⟩], none⟩

def c4Store : Store := [(("p1"), c4Prior)]

def c4Page : Page := ⟨("p1"), 100⟩

def c4Oracle : SyncOracle :=
  ⟨.ok (), .thrown ("blocks append failed") [("G3")], true, (""), 210⟩

/-- Claim C4 as stated is false at this input: the transform succeeds,
the write throws after partially creating target G3, and the Reconciler
makes no archive call at all — in particular it does not archive G3. -/
theorem c4_partial_target_not_archived_counterexample :
    (syncTask c4Ctx c4Oracle c4Store c4Page).trace.leaked = [("G3")] ∧
    (syncTask c4Ctx c4Oracle c4Store c4Page).trace.archives = [] ∧
    ¬ (("G3") ∈ (syncTask c4Ctx c4Oracle c4Store c4Page).trace.archives) := by
  decide

def c4wCtx : SyncCtx := ⟨300, ("A"), ("B"), ("t"), false, false, true, none⟩

def c4wPage : Page := ⟨("q1"), 5⟩

def c4wOracle : SyncOracle := ⟨.ok (), .thrown ("conflict") [("H1"), ("H2")], true, (""), 9⟩

theorem c4_write_throw_rollback_amended_witness :
    (syncTask c4wCtx c4wOracle [] c4wPage).trace.archives = [] ∧
    (syncTask c4wCtx c4wOracle [] c4wPage).trace.leaked = [("H1"), ("H2")] ∧
    (syncTask c4wCtx c4wOracle [] c4wPage).store.lookup (("q1")) =
      some (syncFailRecord c4wCtx (("q1")) none (("conflict"))
        (loadNorm [] (("q1")))) ∧
    (syncFailRecord c4wCtx (("q1")) none (("conflict"))
      (loadNorm [] (("q1")))).targetId = none ∧
    (syncFailRecord c4wCtx (("q1")) none (("conflict"))
      (loadNorm [] (("q1")))).notes = some ("conflict") ∧
    (syncFailRecord c4wCtx (("q1")) none (("conflict"))
      (loadNorm [] (("q1")))).history =
      some (histBase (loadNorm [] (("q1")))) :=
  c4_write_throw_rollback_amended c4wCtx c4wOracle [] c4wPage ("conflict")
    [("H1"), ("H2")] (by decide) (by decide) rfl rfl

/-! ## Claim C3 — the orphan sweep -/

theorem saveMerging_lookup_other (s : Store) (link : LinkJson) (k : String)
    (h : k ≠ link.sourceId) : (saveMerging s link).lookup k = s.lookup k := by
  simp [saveMerging, Store.lookup_set_other _ _ _ _ h]

theorem normLink_sourceId (d : LinkJson) : (normLink d).sourceId = d.sourceId := rfl

theorem loadAll_history_isSome (s : Store) :
    ∀ l ∈ loadAll s, ∃ h, l.history = some h := by
  intro l hl
  simp only [loadAll, List.mem_map] at hl
  obtain ⟨kv, _, rfl⟩ := hl
  exact ⟨_, rfl⟩

theorem loadAll_map_sourceId (s : Store)
    (hwf : ∀ kv ∈ s, (kv.2).sourceId = kv.1) :
    (loadAll s).map (fun l => l.sourceId) = s.map Prod.fst := by
  simp only [loadAll, List.map_map]
  apply List.map_congr_left
  intro kv hkv
  simpa [normLink] using hwf kv hkv

theorem cleanupLoop_archives (archiveOk : Option String → Bool) (now : Nat)
    (L : List LinkJson) (s : Store) (arch : List (Option String)) :
    (cleanupLoop archiveOk now L s arch).archives =
      arch ++ L.map (fun l => l.targetId) := by
  induction L generalizing s arch with
  | nil => simp [cleanupLoop]
  | cons x rest ih =>
      by_cases hx : archiveOk x.targetId <;> simp [cleanupLoop, hx, ih]

theorem cleanupLoop_lookup_notmem (archiveOk : Option String → Bool) (now : Nat)
    (L : List LinkJson) (s : Store) (arch : List (Option String)) (k : String)
    (hk : ∀ x ∈ L, x.sourceId ≠ k) :
    (cleanupLoop archiveOk now L s arch).store.lookup k = s.lookup k := by
  induction L generalizing s arch with
  | nil => simp [cleanupLoop]
  | cons x rest ih =>
      have hxk : k ≠ (archivedVersion x now).sourceId := by
        have := hk x (List.mem_cons_self x rest)
        simp [archivedVersion]
        exact fun hh => this hh.symm
      by_cases hx : archiveOk x.targetId
      · simp only [cleanupLoop, hx, if_true]
        rw [ih _ _ (fun y hy => hk y (List.mem_cons_of_mem x hy))]
        exact saveMerging_lookup_other s (archivedVersion x now) k hxk
      · simp only [cleanupLoop, hx, if_false]
        exact ih _ _ (fun y hy => hk y (List.mem_cons_of_mem x hy))

theorem cleanupLoop_lookup_mem (archiveOk : Option String → Bool) (now : Nat)
    (L : List LinkJson) (s : Store) (arch : List (Option String)) (l : LinkJson)
    (hl : l ∈ L) (hnd : (L.map (fun x => x.sourceId)).Nodup)
    (hhist : ∀ x ∈ L, ∃ h, x.history = some h)
    (hok : ∀ x ∈ L, archiveOk x.targetId = true) :
    (cleanupLoop archiveOk now L s arch).store.lookup l.sourceId =
      some (archivedVersion l now) := by
  induction L generalizing s arch with
  | nil => cases hl
  | cons x rest ih =>
      have hokx : archiveOk x.targetId = true := hok x (List.mem_cons_self x rest)
      simp only [cleanupLoop, hokx, if_true]
      rcases List.mem_cons.mp hl with hlx | hlr
      · subst hlx
        have hrest : ∀ y ∈ rest, y.sourceId ≠ l.sourceId := by
          intro y hy hEq
          have : l.sourceId ∉ rest.map (fun x => x.sourceId) :=
            (List.nodup_cons.mp hnd).1
          exact this (hEq ▸ List.mem_map_of_mem _ hy)
        rw [cleanupLoop_lookup_notmem archiveOk now rest _ _ _ hrest]
        obtain ⟨h, hh⟩ := hhist l (List.mem_cons_self l rest)
        have hhv : (archivedVersion l now).history = some h := by
          simp [archivedVersion, hh]
        have hsrc : (archivedVersion l now).sourceId = l.sourceId := rfl
        rw [saveMerging_of_some _ _ _ hhv]
        rw [← hsrc, Store.lookup_set_same]
      · exact ih _ _ hlr (List.nodup_cons.mp hnd).2
          (fun y hy => hhist y (List.mem_cons_of_mem x hy))
          (fun y hy => hok y (List.mem_cons_of_mem x hy))

/-- Claim C3: for every Content Store partition containing a
status=success LinkRecord whose sourceId is absent from the current
source enumeration, the orphan sweep (which enumerates the partition via
loadAll) calls archive on that record's targetId exactly once — the
archive-call trace is exactly one call per orphan record, in partition
order — and persists the record with status=archived; records whose
sourceId is still present, or whose status is not success, are left
untouched. -/
theorem c3_orphan_sweep (s : Store) (srcIds : List String)
    (archiveOk : Option String → Bool) (now : Nat)
    (hkeys : (s.map Prod.fst).Nodup)
    (hwf : ∀ kv ∈ s, (kv.2).sourceId = kv.1)
    (hok : ∀ l ∈ (loadAll s).filter (orphanPred srcIds),
      archiveOk l.targetId = true) :
    (cleanupOrphans archiveOk now srcIds s).archives =
      ((loadAll s).filter (orphanPred srcIds)).map (fun l => l.targetId) ∧
    (∀ l ∈ loadAll s, orphanPred srcIds l = true →
      (cleanupOrphans archiveOk now srcIds s).store.lookup l.sourceId =
        some (archivedVersion l now)) ∧
    (∀ l ∈ loadAll s, orphanPred srcIds l = false →
      (cleanupOrphans archiveOk now srcIds s).store.lookup l.sourceId =
        s.lookup l.sourceId) := by
  have hndAll : ((loadAll s).map (fun l => l.sourceId)).Nodup := by
    rw [loadAll_map_sourceId s hwf]
    exact hkeys
  have hndF : (((loadAll s).filter (orphanPred srcIds)).map
      (fun l => l.sourceId)).Nodup :=
    hndAll.sublist ((List.filter_sublist _).map _)
  refine ⟨?_, ?_, ?_⟩
  · exact cleanupLoop_archives archiveOk now _ s []
  · intro l hl horph
    exact cleanupLoop_lookup_mem archiveOk now _ s [] l
      (List.mem_filter.mpr ⟨hl, horph⟩) hndF
      (fun y hy => loadAll_history_isSome s y (List.mem_of_mem_filter hy))
      hok
  · intro l hl horph
    apply cleanupLoop_lookup_notmem
    intro x hx hEq
    have hxl : x = l :=
      List.inj_on_of_nodup_map hndAll (List.mem_of_mem_filter hx) hl hEq
    have : orphanPred srcIds x = true := (List.mem_filter.mp hx).2
    rw [hxl, horph] at this
    cases this

def c3DemoOrphan : LinkJson :=
  ⟨("gone"), some ("T1"), ("success"), some 10, none, none, some ("t"),
    none, some [], none⟩

def c3DemoLive : LinkJson :=
  ⟨("alive"), some ("T2"), ("success"), some 11, none, none, some ("t"),
    none, some [], none⟩

def c3DemoStore : Store := [(("gone"), c3DemoOrphan), (("alive"), c3DemoLive)]

theorem c3_orphan_sweep_witness :
    (cleanupOrphans (fun _ => true) 99 [("alive")] c3DemoStore).archives =
      ((loadAll c3DemoStore).filter (orphanPred [("alive")])).map
        (fun l => l.targetId) ∧
    (∀ l ∈ loadAll c3DemoStore, orphanPred [("alive")] l = true →
      (cleanupOrphans (fun _ => true) 99 [("alive")] c3DemoStore).store.lookup
          l.sourceId = some (archivedVersion l 99)) ∧
    (∀ l ∈ loadAll c3DemoStore, orphanPred [("alive")] l = false →
      (cleanupOrphans (fun _ => true) 99 [("alive")] c3DemoStore).store.lookup
          l.sourceId = c3DemoStore.lookup l.sourceId) :=
  c3_orphan_sweep c3DemoStore [("alive")] (fun _ => true) 99
    (by decide) (by decide) (by decide)

/-! ## Media migrator (`services/media_migrator.js`)

File bytes are lists of naturals; SHA-256 is an abstract hash function
supplied by the oracle.  A JavaScript `Map` is modelled with its internal
entry list (`entries`, read by `Map.has`/`Map.get`, written by `Map.set`)
kept separate from ordinary object properties (`props`, written by
`Object.assign`), because `Object.assign(map, obj)` copies `obj`'s
properties onto the map object without touching the map data. -/

abbrev Bytes : Type := List Nat

def assocLookup {α : Type} : List (String × α) → String → Option α
  | [], _ => none
  | (k, v) :: rest, key => if k = key then some v else assocLookup rest key

def assocSet {α : Type} : List (String × α) → String → α → List (String × α)
  | [], key, v => [(key, v)]
  | (k, w) :: rest, key, v =>
      if k = key then (k, v) :: rest else (k, w) :: assocSet rest key v

structure JsMap (α : Type) where
  entries : List (String × α)
  props : List (String × α)
deriving DecidableEq

def JsMap.empty {α : Type} : JsMap α := ⟨[], []⟩

/-- `map.has(k) && map.get(k)`: reads the internal map data only. -/
def JsMap.getEntry {α : Type} (m : JsMap α) (k : String) : Option α :=
  assocLookup m.entries k

/-- `map.set(k, v)`: writes the internal map data. -/
def JsMap.setEntry {α : Type} (m : JsMap α) (k : String) (v : α) : JsMap α :=
  { m with entries := assocSet m.entries k v }

/-- `Object.assign(map, src)`: copies `src`'s enumerable own properties
onto the map object as ordinary properties; the internal map data is
unchanged. -/
def objectAssign {α : Type} (m : JsMap α) (src : List (String × α)) : JsMap α :=
  { m with props := src.foldl (fun acc kv => assocSet acc kv.1 kv.2) m.props }

/-- `downloadCache` value: `(path, size, sha256)`. -/
structure DownloadInfo where
  dpath : String
  dsize : Nat
  sha256 : String
deriving DecidableEq

/-- `uploadCache` value: `(id, size, sha256)` as returned by
`_directUpload` / `_multiPartUpload`. -/
structure UploadInfo where
  uid : String
  usize : Nat
  usha : String
deriving DecidableEq

/-- `media_manifest.json`: `downloads: sourceUrl → info`,
`uploads: sha256 → info`. -/
structure Manifest where
  downloads : List (String × DownloadInfo)
  uploads : List (String × UploadInfo)
deriving DecidableEq

/-- A Notion file object: `type` is `'external'` or `'file'`, with the
URL under the matching sub-object. -/
structure FileObj where
  ftype : String
  extUrl : Option String
  fileUrl : Option String
deriving DecidableEq

/-- `const sourceUrl = (fileObj.type === 'external') ? fileObj.external.url
: fileObj.file.url`. -/
def FileObj.sourceUrl (f : FileObj) : Option String :=
  if f.ftype = ("external") then f.extUrl else f.fileUrl

/-- The external world as seen by one `MediaMigrator` instance:
`fetchBytes` is the HTTP fetch (`none` models a network error or non-2xx
status), `hashOf` is SHA-256, `createId`/`createUrl` give the id and
upload URL returned by the n-th `file_uploads` create call,
`pollStatus n a` the status returned by the a-th poll for that upload,
`partOk n p` whether part p of that multi-part upload succeeds. -/
structure MediaOracle where
  fetchBytes : String → Option Bytes
  hashOf : Bytes → String
  createId : Nat → String
  createUrl : Nat → String
  pollStatus : Nat → Nat → String
  partOk : Nat → Nat → Bool

/-- Mutable state of a `MediaMigrator` plus its observable network
trace: `fetchLog` records download fetches actually performed and
`uploadOps` records upload handles actually created (one per
direct/multi-part upload that reaches the target). -/
structure MMState where
  downloadCache : JsMap DownloadInfo
  uploadCache : JsMap UploadInfo
  manifestDownloads : List (String × DownloadInfo)
  manifestUploads : List (String × UploadInfo)
  createCount : Nat
  fetchLog : List String
  uploadOps : List String
deriving DecidableEq

def MMState.start : MMState := ⟨JsMap.empty, JsMap.empty, [], [], 0, [], []⟩

/-- `init()`: load an existing manifest file (when present) and
`Object.assign` its two maps onto the two caches. -/
def mmInit (mf : Option Manifest) (s : MMState) : MMState :=
  match mf with
  | none => s
  | some m =>
      { s with manifestDownloads := m.downloads
               manifestUploads := m.uploads
               downloadCache := objectAssign s.downloadCache m.downloads
               uploadCache := objectAssign s.uploadCache m.uploads }

inductive DlOut where
  | missingUrl
  | fetchErr
  | got (info : DownloadInfo)
deriving DecidableEq

/-- `_downloadFile(pageId, fileObj)`: resolve the source URL (skip when
missing), consult the URL-keyed cache via `Map.has`/`Map.get`, otherwise
fetch, hash, and record in cache and manifest.  The staging path is
modelled by the URL (its exact name is irrelevant to the claims). -/
def mmDownloadFile (o : MediaOracle) (f : FileObj) (s : MMState) :
    DlOut × MMState :=
  match f.sourceUrl with
  | none => (.missingUrl, s)
  | some u =>
    match s.downloadCache.getEntry u with
    | some info => (.got info, s)
    | none =>
      match o.fetchBytes u with
      | none => (.fetchErr, { s with fetchLog := s.fetchLog ++ [u] })
      | some b =>
          let info : DownloadInfo := ⟨("tmp_") ++ u, b.length, o.hashOf b⟩
          (.got info,
            { s with fetchLog := s.fetchLog ++ [u]
                     downloadCache := s.downloadCache.setEntry u info
                     manifestDownloads := assocSet s.manifestDownloads u info })

/-- `_waitUntilUploaded`: up to 15 polls; `uploaded` is terminal success,
`expired`/`failed` are terminal errors, exceeding the attempt ceiling is
a timeout error. -/
def waitLoop (poll : Nat → String) : Nat → Nat → Except String Unit
  | _, 0 => .error ("Upload did not complete within expected time")
  | attempt, rem + 1 =>
      let st := poll attempt
      if st = ("uploaded") then .ok ()
      else if st = ("expired") || st = ("failed") then
        .error (("Upload failed with status ") ++ st)
      else waitLoop poll (attempt + 1) rem

def waitUntilUploaded (poll : Nat → String) : Except String Unit :=
  waitLoop poll 1 15

/-- `Math.ceil(size / partSize)` (exact for the integer magnitudes
involved). -/
def totalPartsOf (size partSize : Nat) : Nat := (size + partSize - 1) / partSize

/-- `start = (partNumber - 1) * partSize`. -/
def partStart (partSize p : Nat) : Nat := (p - 1) * partSize

/-- `end = Math.min(start + partSize, size) - 1` (inclusive, as passed to
`fs.createReadStream`). -/
def partEndIncl (partSize size p : Nat) : Nat :=
  min (partStart partSize p + partSize) size - 1

def batchesOfAux (k : Nat) : Nat → List Nat → List (List Nat)
  | 0, _ => []
  | _, [] => []
  | fuel + 1, l => l.take k :: batchesOfAux k fuel (l.drop k)

/-- `for (let i = 0; i < partNumbers.length; i += maxParallel)
{ const batch = partNumbers.slice(i, i + maxParallel); ... }`. -/
def batchesOf (k : Nat) (l : List Nat) : List (List Nat) :=
  batchesOfAux k l.length l

/-- Upload the batches in order (each batch runs its parts in parallel
via `Promise.all`): a batch whose parts all succeed continues; a batch
with a failing part attempts its parts, rejects with that part's error,
and no later batch runs. -/
def runBatches (partOk : Nat → Bool) : List (List Nat) → List (List Nat) × Option String
  | [] => ([], none)
  | b :: rest =>
      match b.find? (fun p => !(partOk p)) with
      | some p =>
          ([b], some (("Failed to upload part ") ++ toString p))
      | none =>
          let out := runBatches partOk rest
          (b :: out.1, out.2)

/-- Observable behavior of one `_multiPartUpload` call. -/
structure MPOut where
  declaredParts : Nat
  attemptedBatches : List (List Nat)
  completeCalls : Nat
  result : Except String UploadInfo

/-- `Array.from({length: totalParts}, (_, i) => i + 1)` — the part
numbers 1..totalParts. -/
def partNumbersOf (size chunk : Nat) : List Nat :=
  (List.range (totalPartsOf size chunk)).map (fun i => i + 1)

/-- The batches of part numbers, `maxParallel` at a time. -/
def plannedBatches (size chunk maxParallel : Nat) : List (List Nat) :=
  batchesOf maxParallel (partNumbersOf size chunk)

/-- `_multiPartUpload(filePath, size)`: compute the part count, create
the upload handle declaring it, upload byte-range parts in batches of at
most `maxParallel`, send one completion request, then poll to terminal
`uploaded`; the returned info carries the upload id (also echoed in the
`sha256` slot, as in the source). -/
def multiPartUpload (chunkSizeBytes maxParallel : Nat) (uploadId : String)
    (partOk : Nat → Bool) (poll : Nat → String) (size : Nat) : MPOut :=
  match runBatches partOk (plannedBatches size chunkSizeBytes maxParallel) with
  | (att, some e) => ⟨totalPartsOf size chunkSizeBytes, att, 0, .error e⟩
  | (att, none) =>
      match waitUntilUploaded poll with
      | .error e => ⟨totalPartsOf size chunkSizeBytes, att, 1, .error e⟩
      | .ok _ =>
          ⟨totalPartsOf size chunkSizeBytes, att, 1, .ok ⟨uploadId, size, uploadId⟩⟩

/-- `_uploadFile(localInfo)`: sha256-keyed cache check, then direct
upload (size within the chunk threshold: create handle, send body, poll)
or multi-part upload; on success the result is recorded in cache and
manifest. -/
def mmUploadFile (o : MediaOracle) (chunk maxParallel : Nat)
    (info : DownloadInfo) (s : MMState) : Except String UploadInfo × MMState :=
  match s.uploadCache.getEntry info.sha256 with
  | some up => (.ok up, s)
  | none =>
    let n := s.createCount
    let uid := o.createId n
    let s1 := { s with createCount := n + 1, uploadOps := s.uploadOps ++ [uid] }
    if info.dsize ≤ chunk then
      match waitUntilUploaded (o.pollStatus n) with
      | .error e => (.error e, s1)
      | .ok _ =>
          let up : UploadInfo := ⟨uid, info.dsize, o.createUrl n⟩
          (.ok up,
            { s1 with uploadCache := s1.uploadCache.setEntry info.sha256 up
                      manifestUploads := assocSet s1.manifestUploads info.sha256 up })
    else
      let out := multiPartUpload chunk maxParallel uid (o.partOk n)
        (o.pollStatus n) info.dsize
      match out.result with
      | .error e => (.error e, s1)
      | .ok up =>
          (.ok up,
            { s1 with uploadCache := s1.uploadCache.setEntry info.sha256 up
                      manifestUploads := assocSet s1.manifestUploads info.sha256 up })

/-- A returned `file_upload` reference. -/
structure FileRef where
  refId : String
  fname : String
deriving DecidableEq

/-- `processFiles(pageId, filesArray)`: per file, download then upload;
a missing URL or a caught per-file error drops that file from the result
set without aborting the siblings. -/
def mmProcessFiles (o : MediaOracle) (chunk maxParallel : Nat) :
    List FileObj → MMState → List FileRef × MMState
  | [], s => ([], s)
  | f :: rest, s =>
      match mmDownloadFile o f s with
      | (.missingUrl, s1) => mmProcessFiles o chunk maxParallel rest s1
      | (.fetchErr, s1) => mmProcessFiles o chunk maxParallel rest s1
      | (.got info, s1) =>
          match mmUploadFile o chunk maxParallel info s1 with
          | (.error _, s2) => mmProcessFiles o chunk maxParallel rest s2
          | (.ok up, s2) =>
              let out := mmProcessFiles o chunk maxParallel rest s2
              (⟨up.uid, info.dpath⟩ :: out.1, out.2)

/-! ## Claim C1 — manifest-based resume -/

def c1Manifest : Manifest :=
  ⟨[(("u1"), ⟨("tmp_u1"), 4, ("h0")⟩)], [(("h0"), ⟨("oldId"), 4, ("oldsha")⟩)]⟩

def c1Oracle : MediaOracle :=
  ⟨fun u => if u = ("u1") then some [1, 2, 3, 4] else none,
   fun _ => ("h0"),
   fun n => ("newId") ++ toString n,
   fun n => ("url") ++ toString n,
   fun _ _ => ("uploaded"),
   fun _ _ => true⟩

def c1File : FileObj := ⟨("external"), some ("u1"), none⟩

def c1Run : List FileRef × MMState :=
  mmProcessFiles c1Oracle 100 10 [c1File] (mmInit (some c1Manifest) MMState.start)

/-- Claim C1 stated: after `init()` loads a manifest recording source URL
u1 (downloads) and sha256 h0 (uploads), a `processFiles` call that
encounters u1 (whose bytes hash to h0) takes the cache-hit path: no new
download, no new upload, and the previously recorded entry is returned.

This is false on the code, and the code contradicts its own stated
purpose ("load existing manifest" so a rerun skips done work):
`Object.assign(this.downloadCache, manifest.downloads)` writes plain
properties onto the `Map` object, which `Map.has`/`Map.get` never see, so
after `init()` both caches are still empty — the run re-fetches u1, makes
a brand-new upload, and returns the new upload id, not the recorded
`oldId`. -/
theorem c1_manifest_reload_is_ineffective :
    c1Run.2.fetchLog = [("u1")] ∧
    c1Run.2.uploadOps = [("newId0")] ∧
    c1Run.1.map (fun r => r.refId) = [("newId0")] ∧
    ¬ (c1Run.1.map (fun r => r.refId) = [("oldId")]) ∧
    (mmInit (some c1Manifest) MMState.start).downloadCache.getEntry ("u1") = none ∧
    (mmInit (some c1Manifest) MMState.start).uploadCache.getEntry ("h0") = none ∧
    (mmInit (some c1Manifest) MMState.start).manifestDownloads =
      c1Manifest.downloads := by
  decide

/-! ## Claim C6 — content-addressed upload dedup -/

/-- Claim C6: for every two file references processed in one
MediaMigrator lifetime whose downloaded bytes have the same SHA-256,
exactly one upload call reaches the target (the second `_uploadFile` call
hits the sha256-keyed cache and performs no network call), and both
returned references carry the same upload id. -/
theorem c6_content_addressed_upload_dedup
    (o : MediaOracle) (chunk maxParallel : Nat) (f1 f2 : FileObj)
    (u1 u2 : String) (b1 b2 : Bytes)
    (h1 : f1.sourceUrl = some u1) (h2 : f2.sourceUrl = some u2)
    (hf1 : o.fetchBytes u1 = some b1) (hf2 : o.fetchBytes u2 = some b2)
    (hh : o.hashOf b1 = o.hashOf b2)
    (hsz : b1.length ≤ chunk)
    (hwait : waitUntilUploaded (o.pollStatus 0) = Except.ok ()) :
    (mmProcessFiles o chunk maxParallel [f1, f2] MMState.start).2.uploadOps =
      [o.createId 0] ∧
    (mmProcessFiles o chunk maxParallel [f1, f2] MMState.start).1.map
      (fun r => r.refId) = [o.createId 0, o.createId 0] := by
  by_cases hu : u1 = u2
  · subst hu
    have hb : b2 = b1 := (Option.some.inj (hf1.symm.trans hf2)).symm
    subst hb
    constructor <;>
      simp [mmProcessFiles, mmDownloadFile, h1, h2, hf1, mmUploadFile,
        JsMap.getEntry, JsMap.setEntry, assocLookup, assocSet, MMState.start,
        JsMap.empty, hwait, hsz]
  · constructor <;>
      simp [mmProcessFiles, mmDownloadFile, h1, h2, hf1, hf2, mmUploadFile,
        JsMap.getEntry, JsMap.setEntry, assocLookup, assocSet, MMState.start,
        JsMap.empty, hwait, hsz, hu, hh]

def c6Oracle : MediaOracle :=
  ⟨fun _ => some [7, 7],
   fun _ => ("H"),
   fun n => ("ID") ++ toString n,
   fun n => ("url") ++ toString n,
   fun _ _ => ("uploaded"),
   fun _ _ => true⟩

def c6FileA : FileObj := ⟨("external"), some ("a"), none⟩

def c6FileB : FileObj := ⟨("file"), none, some ("b")⟩

theorem c6_content_addressed_upload_dedup_witness :
    (mmProcessFiles c6Oracle 10 3 [c6FileA, c6FileB] MMState.start).2.uploadOps =
      [c6Oracle.createId 0] ∧
    (mmProcessFiles c6Oracle 10 3 [c6FileA, c6FileB] MMState.start).1.map
      (fun r => r.refId) = [c6Oracle.createId 0, c6Oracle.createId 0] :=
  c6_content_addressed_upload_dedup c6Oracle 10 3 c6FileA c6FileB
    ("a") ("b") [7, 7] [7, 7] rfl rfl rfl rfl rfl (by decide) rfl

/-! ## Claim C9 — multi-part upload -/

theorem batchesOfAux_flatten (k : Nat) (hk : 0 < k) :
    ∀ (fuel : Nat) (l : List Nat), l.length ≤ fuel →
      (batchesOfAux k fuel l).flatten = l := by
  intro fuel
  induction fuel with
  | zero =>
      intro l hl
      have h0 : l = [] := List.eq_nil_of_length_eq_zero (Nat.le_zero.mp hl)
      simp [h0, batchesOfAux]
  | succ n ih =>
      intro l hl
      match l with
      | [] => simp [batchesOfAux]
      | x :: xs =>
          simp only [batchesOfAux, List.flatten_cons]
          rw [ih ((x :: xs).drop k) ?hlen]
          · exact List.take_append_drop k (x :: xs)
          case hlen =>
            rw [List.length_drop]
            simp only [List.length_cons] at hl ⊢
            omega

theorem batchesOfAux_len (k : Nat) :
    ∀ (fuel : Nat) (l : List Nat), ∀ b ∈ batchesOfAux k fuel l, b.length ≤ k := by
  intro fuel
  induction fuel with
  | zero => intro l b hb; simp [batchesOfAux] at hb
  | succ n ih =>
      intro l b hb
      match l with
      | [] => simp [batchesOfAux] at hb
      | x :: xs =>
          simp only [batchesOfAux, List.mem_cons] at hb
          rcases hb with rfl | hb
          · simp [List.length_take]
          · exact ih _ b hb

theorem batchesOf_flatten (k : Nat) (hk : 0 < k) (l : List Nat) :
    (batchesOf k l).flatten = l :=
  batchesOfAux_flatten k hk l.length l (le_refl _)

theorem batchesOf_len (k : Nat) (l : List Nat) :
    ∀ b ∈ batchesOf k l, b.length ≤ k :=
  batchesOfAux_len k l.length l

theorem runBatches_all_ok (partOk : Nat → Bool) :
    ∀ B : List (List Nat), (∀ b ∈ B, ∀ p ∈ b, partOk p = true) →
      runBatches partOk B = (B, none) := by
  intro B
  induction B with
  | nil => intro _; simp [runBatches]
  | cons b rest ih =>
      intro h
      have hfind : b.find? (fun p => !(partOk p)) = none := by
        apply List.find?_eq_none.mpr
        intro p hp
        simp [h b (List.mem_cons_self _ _) p hp]
      simp [runBatches, hfind, ih (fun c hc => h c (List.mem_cons_of_mem _ hc))]

theorem runBatches_fails (partOk : Nat → Bool) :
    ∀ B : List (List Nat), ∀ p, p ∈ B.flatten → partOk p = false →
      ((runBatches partOk B).2).isSome := by
  intro B
  induction B with
  | nil => intro p hp; simp at hp
  | cons b rest ih =>
      intro p hp hpf
      rw [List.flatten_cons, List.mem_append] at hp
      match hfind : b.find? (fun q => !(partOk q)) with
      | some q => simp [runBatches, hfind]
      | none =>
          rcases hp with hpb | hpr
          · exfalso
            have := List.find?_eq_none.mp hfind p hpb
            simp [hpf] at this
          · simp only [runBatches, hfind]
            exact ih p hpr hpf

theorem totalParts_bounds (size chunk : Nat) (hc : 0 < chunk) (hs : 0 < size) :
    size ≤ totalPartsOf size chunk * chunk ∧
    (totalPartsOf size chunk - 1) * chunk < size := by
  have hdm := Nat.div_add_mod (size + chunk - 1) chunk
  have hr : (size + chunk - 1) % chunk < chunk := Nat.mod_lt _ hc
  have h1 : 1 ≤ totalPartsOf size chunk := by
    unfold totalPartsOf
    rw [Nat.one_le_div_iff hc]
    omega
  unfold totalPartsOf at h1 ⊢
  set N := (size + chunk - 1) / chunk with hN
  have hsub : (N - 1) * chunk = N * chunk - chunk := by
    rw [Nat.sub_mul, one_mul]
  have hcomm : N * chunk = chunk * N := Nat.mul_comm _ _
  rw [hsub, hcomm]
  generalize hA : chunk * N = A at hdm ⊢
  omega

theorem part_tiling (size chunk : Nat) (hc : 0 < chunk) (hs : chunk < size) :
    partStart chunk 1 = 0 ∧
    partEndIncl chunk size (totalPartsOf size chunk) = size - 1 ∧
    (∀ p, 1 ≤ p → p < totalPartsOf size chunk →
      partEndIncl chunk size p + 1 = partStart chunk (p + 1) ∧
      partEndIncl chunk size p + 1 - partStart chunk p = chunk) := by
  have hs0 : 0 < size := lt_trans hc hs
  obtain ⟨hub, hlb⟩ := totalParts_bounds size chunk hc hs0
  refine ⟨by simp [partStart], ?_, ?_⟩
  · have hM1 : 1 ≤ totalPartsOf size chunk := by
      rcases Nat.eq_zero_or_pos (totalPartsOf size chunk) with h0 | h1
      · rw [h0, Nat.zero_mul] at hub
        omega
      · exact h1
    have hD : (totalPartsOf size chunk - 1) * chunk =
        totalPartsOf size chunk * chunk - chunk := by
      rw [Nat.sub_mul, one_mul]
    have hCc : chunk ≤ totalPartsOf size chunk * chunk :=
      Nat.le_mul_of_pos_left chunk hM1
    simp only [partEndIncl, partStart]
    rw [hD]
    generalize totalPartsOf size chunk * chunk = A at hub hCc ⊢
    omega
  · intro p hp1 hpM
    have hD : (p - 1) * chunk = p * chunk - chunk := by
      rw [Nat.sub_mul, one_mul]
    have hCc : chunk ≤ p * chunk := Nat.le_mul_of_pos_left chunk (by omega)
    have hCM : p * chunk ≤ (totalPartsOf size chunk - 1) * chunk :=
      Nat.mul_le_mul_right chunk (by omega)
    simp only [partEndIncl, partStart, Nat.add_sub_cancel]
    rw [hD]
    generalize hC : p * chunk = C at hCc hCM ⊢
    generalize hE : (totalPartsOf size chunk - 1) * chunk = E at hlb hCM ⊢
    constructor <;> omega

/-- Claim C9: for every file of size strictly greater than the chunk
threshold, the multi-part upload path computes `ceil(size / chunkSize)`
parts, declares that part count when creating the upload handle, uploads
parts as byte-range slices (the slices tile the file contiguously from
byte 0 to byte size-1, interior slices exactly `chunkSize` long) in
batches of at most `maxParallel`, issues exactly one completion request
after all parts succeed and then polls to terminal `uploaded`; a failure
uploading any single part aborts the whole multi-part attempt (no
completion request is sent and the call returns an error). -/
theorem c9_multipart_upload (chunk maxParallel : Nat) (uploadId : String)
    (partOk : Nat → Bool) (poll : Nat → String) (size : Nat)
    (hc : 0 < chunk) (hmp : 0 < maxParallel) (hs : chunk < size) :
    (multiPartUpload chunk maxParallel uploadId partOk poll size).declaredParts =
      (size + chunk - 1) / chunk ∧
    (partStart chunk 1 = 0 ∧
     partEndIncl chunk size (totalPartsOf size chunk) = size - 1 ∧
     ∀ p, 1 ≤ p → p < totalPartsOf size chunk →
       partEndIncl chunk size p + 1 = partStart chunk (p + 1) ∧
       partEndIncl chunk size p + 1 - partStart chunk p = chunk) ∧
    ((plannedBatches size chunk maxParallel).flatten = partNumbersOf size chunk ∧
     ∀ b ∈ plannedBatches size chunk maxParallel, b.length ≤ maxParallel) ∧
    ((∀ p ∈ partNumbersOf size chunk, partOk p = true) →
      (multiPartUpload chunk maxParallel uploadId partOk poll size).attemptedBatches =
        plannedBatches size chunk maxParallel ∧
      (multiPartUpload chunk maxParallel uploadId partOk poll size).completeCalls = 1 ∧
      (waitUntilUploaded poll = Except.ok () →
        (multiPartUpload chunk maxParallel uploadId partOk poll size).result =
          Except.ok ⟨uploadId, size, uploadId⟩)) ∧
    (∀ p ∈ partNumbersOf size chunk, partOk p = false →
      (multiPartUpload chunk maxParallel uploadId partOk poll size).completeCalls = 0 ∧
      ∃ e, (multiPartUpload chunk maxParallel uploadId partOk poll size).result =
        Except.error e) := by
  have hflat : (plannedBatches size chunk maxParallel).flatten =
      partNumbersOf size chunk :=
    batchesOf_flatten maxParallel hmp (partNumbersOf size chunk)
  refine ⟨?_, part_tiling size chunk hc hs,
    ⟨hflat, batchesOf_len maxParallel (partNumbersOf size chunk)⟩, ?_, ?_⟩
  · unfold multiPartUpload
    rcases hrb : runBatches partOk (plannedBatches size chunk maxParallel)
      with ⟨att, err⟩
    cases err with
    | none =>
        cases hw : waitUntilUploaded poll with
        | error e => simp [totalPartsOf]
        | ok _ => simp [totalPartsOf]
    | some e => simp [totalPartsOf]
  · intro hok
    have hall : ∀ b ∈ plannedBatches size chunk maxParallel, ∀ p ∈ b,
        partOk p = true := by
      intro b hb p hp
      exact hok p (hflat ▸ List.mem_flatten.mpr ⟨b, hb, hp⟩)
    have hrb := runBatches_all_ok partOk (plannedBatches size chunk maxParallel) hall
    refine ⟨?_, ?_, ?_⟩
    · unfold multiPartUpload
      rw [hrb]
      cases hw : waitUntilUploaded poll <;> rfl
    · unfold multiPartUpload
      rw [hrb]
      cases hw : waitUntilUploaded poll <;> rfl
    · intro hw
      unfold multiPartUpload
      rw [hrb, hw]
  · intro p hp hpf
    have hmem : p ∈ (plannedBatches size chunk maxParallel).flatten :=
      hflat ▸ hp
    have hfail := runBatches_fails partOk (plannedBatches size chunk maxParallel)
      p hmem hpf
    unfold multiPartUpload
    rcases hrb : runBatches partOk (plannedBatches size chunk maxParallel)
      with ⟨att, err⟩
    cases err with
    | none =>
        rw [hrb] at hfail
        simp at hfail
    | some e => exact ⟨rfl, e, rfl⟩

theorem c9_multipart_upload_witness :
    ((multiPartUpload 19922944 10 ("U") (fun _ => true)
        (fun _ => ("uploaded")) 52428800).declaredParts =
      (52428800 + 19922944 - 1) / 19922944 ∧
    (partStart 19922944 1 = 0 ∧
     partEndIncl 19922944 52428800 (totalPartsOf 52428800 19922944) =
       52428800 - 1 ∧
     ∀ p, 1 ≤ p → p < totalPartsOf 52428800 19922944 →
       partEndIncl 19922944 52428800 p + 1 = partStart 19922944 (p + 1) ∧
       partEndIncl 19922944 52428800 p + 1 - partStart 19922944 p = 19922944) ∧
    ((plannedBatches 52428800 19922944 10).flatten =
        partNumbersOf 52428800 19922944 ∧
     ∀ b ∈ plannedBatches 52428800 19922944 10, b.length ≤ 10) ∧
    ((∀ p ∈ partNumbersOf 52428800 19922944, (fun (_ : Nat) => true) p = true) →
      (multiPartUpload 19922944 10 ("U") (fun _ => true)
          (fun _ => ("uploaded")) 52428800).attemptedBatches =
        plannedBatches 52428800 19922944 10 ∧
      (multiPartUpload 19922944 10 ("U") (fun _ => true)
          (fun _ => ("uploaded")) 52428800).completeCalls = 1 ∧
      (waitUntilUploaded (fun _ => ("uploaded")) = Except.ok () →
        (multiPartUpload 19922944 10 ("U") (fun _ => true)
            (fun _ => ("uploaded")) 52428800).result =
          Except.ok ⟨("U"), 52428800, ("U")⟩)) ∧
    (∀ p ∈ partNumbersOf 52428800 19922944, (fun (_ : Nat) => true) p = false →
      (multiPartUpload 19922944 10 ("U") (fun _ => true)
          (fun _ => ("uploaded")) 52428800).completeCalls = 0 ∧
      ∃ e, (multiPartUpload 19922944 10 ("U") (fun _ => true)
          (fun _ => ("uploaded")) 52428800).result = Except.error e)) ∧
    totalPartsOf 52428800 19922944 = 3 :=
  ⟨c9_multipart_upload 19922944 10 ("U") (fun _ => true)
      (fun _ => ("uploaded")) 52428800 (by decide) (by decide) (by decide),
   by decide⟩

/-! ## The `delta_sync.js` main loop (third document inside
`src/daily_reporting/format_email_body.js`)

This is the loop with the repeated-failure circuit breaker
(`fatalErrorsInARow`, `totalFatalErrors`, `shouldExit`).  The float
comparison `totalFatalErrors / (updated + skipped + failed) > 0.2` is
modelled exactly by the integer comparison `5 * totalFatalErrors >
updated + skipped + failed` (the two agree at these counter magnitudes).
The `eligiblePages` pre-filter of this file compares against a Promise
that is never awaited, so its needs-sync clause is always true and only
the `onlyId` clause filters. -/

structure DeltaCfg where
  runtimeStart : Nat
  srcDb : String
  tgtDb : String
  linkType : String
  force : Bool
  dryRun : Bool
  strictMode : Bool
  onlyId : Option String

/-- Per-page behavior of the collaborators: the transform throws, the
write throws (after internally creating `createdInside`), or the write
returns `gid` and a later archive of the prior target either succeeds
(`oldArchive = none`) or throws that message. -/
inductive PageBehavior where
  | transformThrows (msg : String)
  | writeThrows (msg : String) (createdInside : List String)
  | writeOk (gid : String) (oldArchive : Option String) (nowMs : Nat)

structure DeltaState where
  store : Store
  updated : Nat
  skippedN : Nat
  failedN : Nat
  fatalInARow : Nat
  totalFatal : Nat
  processed : Nat
  processedIds : List String
  archives : List String
  halted : Bool
  threwMsg : Option String
deriving DecidableEq

def deltaSuccessRecord (cfg : DeltaCfg) (pid gid : String)
    (hist : List HistEntry) : LinkJson :=
  ⟨pid, some gid, ("success"), some cfg.runtimeStart, some cfg.srcDb,
    some cfg.tgtDb, some cfg.linkType, some (""), some hist, none⟩

def deltaFailRecord (cfg : DeltaCfg) (pid : String) (newPage : Option String)
    (msg : String) (e : Option LinkJson) : LinkJson :=
  ⟨pid, newPage, ("fail"), some cfg.runtimeStart, some cfg.srcDb,
    some cfg.tgtDb, some cfg.linkType, some msg, some (histBase e), none⟩

/-- The catch block of the `delta_sync.js` loop (lines 374-427):
`failed++`; best-effort rollback archive of the new page when its id is
known; bump the breaker counters; compute `shouldExit`; persist the fail
record; rethrow in strict mode, else break when `shouldExit`. -/
def deltaCatch (cfg : DeltaCfg) (p : Page) (e : Option LinkJson)
    (newPage : Option String) (msg : String) (s : DeltaState) : DeltaState :=
  let failedN := s.failedN + 1
  let archives := s.archives ++ (match newPage with
    | some g => [g]
    | none => [])
  let fatalInARow := s.fatalInARow + 1
  let totalFatal := s.totalFatal + 1
  let deferRatio : Bool := decide (s.processed < 10)
  let denom := s.updated + s.skippedN + failedN
  let rateExceeds : Bool := decide (denom < 5 * totalFatal)
  let shouldExit : Bool :=
    decide (3 ≤ fatalInARow) || decide (50 ≤ totalFatal) ||
      (!deferRatio && rateExceeds)
  let store2 := saveMerging s.store (deltaFailRecord cfg p.pid newPage msg e)
  if cfg.strictMode then
    { s with
      store := store2
      failedN := failedN
      archives := archives
      fatalInARow := fatalInARow
      totalFatal := totalFatal
      halted := true
      threwMsg := some msg }
  else
    { s with
      store := store2
      failedN := failedN
      archives := archives
      fatalInARow := fatalInARow
      totalFatal := totalFatal
      halted := shouldExit }

/-- The body of one loop iteration after the dead inner onlyId check:
needs-sync test, dry-run short-circuit, then the try/catch. -/
def deltaStepBody (cfg : DeltaCfg) (behav : String → PageBehavior) (p : Page)
    (s : DeltaState) : DeltaState :=
  let existing := loadNorm s.store p.pid
  match needsSyncFlag cfg.force existing p.lastEdited, cfg.dryRun with
  | false, _ => { s with skippedN := s.skippedN + 1 }
  | true, true => s
  | true, false =>
    match behav p.pid with
    | .transformThrows msg => deltaCatch cfg p existing none msg s
    | .writeThrows msg _ => deltaCatch cfg p existing none msg s
    | .writeOk gid oldArchive nowMs =>
        let hist1 := histBase existing ++ (match existing with
          | some e => match e.targetId with
            | some t => [⟨some t, e.syncedAt, none, ("Replaced due to drift")⟩]
            | none => []
          | none => [])
        let link1 := deltaSuccessRecord cfg p.pid gid hist1
        let s1 := { s with
          store := saveMerging s.store link1
          updated := s.updated + 1
          fatalInARow := 0 }
        match existing with
        | none => s1
        | some e =>
          match e.targetId with
          | none => s1
          | some tgt =>
              let s2 := { s1 with archives := s1.archives ++ [tgt] }
              match oldArchive with
              | none =>
                  let link2 := { link1 with
                    history := some (setLastDeleted hist1 nowMs) }
                  { s2 with store := saveMerging s2.store link2 }
              | some archMsg => deltaCatch cfg p existing (some gid) archMsg s2

/-- One iteration: `processed++`, record the page, run the body. -/
def deltaStep (cfg : DeltaCfg) (behav : String → PageBehavior) (p : Page)
    (s0 : DeltaState) : DeltaState :=
  let s := { s0 with
    processed := s0.processed + 1
    processedIds := s0.processedIds ++ [p.pid] }
  match cfg.onlyId with
  | some i => if p.pid = i then deltaStepBody cfg behav p s else s
  | none => deltaStepBody cfg behav p s

/-- The loop over the eligible pages; a `break` (circuit breaker) or a
strict-mode throw stops all further iterations. -/
def deltaLoop (cfg : DeltaCfg) (behav : String → PageBehavior) :
    List Page → DeltaState → DeltaState
  | [], s => s
  | p :: rest, s =>
      if s.halted then s else deltaLoop cfg behav rest (deltaStep cfg behav p s)

/-- The `eligiblePages` filter: its needs-sync clause compares against an
un-awaited Promise and is therefore always true; only `onlyId` filters. -/
def deltaEligible (cfg : DeltaCfg) (pages : List Page) : List Page :=
  pages.filter fun p =>
    match cfg.onlyId with
    | some i => p.pid = i
    | none => true

def deltaInit (s : Store) : DeltaState := ⟨s, 0, 0, 0, 0, 0, 0, [], [], false, none⟩

def deltaRun (cfg : DeltaCfg) (behav : String → PageBehavior)
    (pages : List Page) (s : Store) : DeltaState :=
  deltaLoop cfg behav (deltaEligible cfg pages) (deltaInit s)

theorem deltaLoop_halted (cfg : DeltaCfg) (behav : String → PageBehavior)
    (l : List Page) (s : DeltaState) (h : s.halted = true) :
    deltaLoop cfg behav l s = s := by
  cases l with
  | nil => rfl
  | cons p rest => simp [deltaLoop, h]

theorem deltaLoop_append (cfg : DeltaCfg) (behav : String → PageBehavior)
    (a b : List Page) (s : DeltaState) :
    deltaLoop cfg behav (a ++ b) s = deltaLoop cfg behav b (deltaLoop cfg behav a s) := by
  induction a generalizing s with
  | nil => rfl
  | cons p rest ih =>
      by_cases h : s.halted
      · rw [deltaLoop_halted cfg behav _ s h, deltaLoop_halted cfg behav _ s h,
          deltaLoop_halted cfg behav _ s h]
      · simp only [List.cons_append, deltaLoop, h, if_false]
        exact ih _

/-! ## Claim C7 — the repeated-failure circuit breaker -/

theorem deltaCatch_trips (cfg : DeltaCfg) (p : Page) (e : Option LinkJson)
    (newPage : Option String) (msg : String) (s : DeltaState)
    (hstrict : cfg.strictMode = false)
    (htrip : 3 ≤ (deltaCatch cfg p e newPage msg s).fatalInARow ∨
      (10 ≤ (deltaCatch cfg p e newPage msg s).processed ∧
        (deltaCatch cfg p e newPage msg s).updated +
          (deltaCatch cfg p e newPage msg s).skippedN +
          (deltaCatch cfg p e newPage msg s).failedN <
            5 * (deltaCatch cfg p e newPage msg s).totalFatal)) :
    (deltaCatch cfg p e newPage msg s).halted = true ∧
    (deltaCatch cfg p e newPage msg s).store.lookup p.pid =
      some (deltaFailRecord cfg p.pid newPage msg e) ∧
    (deltaCatch cfg p e newPage msg s).failedN = s.failedN + 1 := by
  have hrec : (deltaFailRecord cfg p.pid newPage msg e).history =
      some (histBase e) := rfl
  have hkey : (deltaFailRecord cfg p.pid newPage msg e).sourceId = p.pid := rfl
  simp only [deltaCatch, hstrict, Bool.false_eq_true, if_false] at htrip
  refine ⟨?_, ?_, by simp [deltaCatch, hstrict]⟩
  · simp only [deltaCatch, hstrict, Bool.false_eq_true, if_false,
      Bool.or_eq_true, decide_eq_true_eq, Bool.and_eq_true,
      Bool.not_eq_true', decide_eq_false_iff_not]
    rcases htrip with h | ⟨hp, hr⟩
    · left
      left
      exact h
    · right
      exact ⟨by omega, by simpa using hr⟩
  · simp only [deltaCatch, hstrict, Bool.false_eq_true, if_false]
    rw [saveMerging_of_some _ _ _ hrec, hkey, Store.lookup_set_same]

theorem deltaStepBody_trips (cfg : DeltaCfg) (behav : String → PageBehavior)
    (p : Page) (s : DeltaState)
    (hstrict : cfg.strictMode = false)
    (hfail : (deltaStepBody cfg behav p s).failedN = s.failedN + 1)
    (htrip : 3 ≤ (deltaStepBody cfg behav p s).fatalInARow ∨
      (10 ≤ (deltaStepBody cfg behav p s).processed ∧
        (deltaStepBody cfg behav p s).updated +
          (deltaStepBody cfg behav p s).skippedN +
          (deltaStepBody cfg behav p s).failedN <
            5 * (deltaStepBody cfg behav p s).totalFatal)) :
    (deltaStepBody cfg behav p s).halted = true ∧
    ((deltaStepBody cfg behav p s).store.lookup p.pid).map
      (fun l => l.status) = some ("fail") := by
  cases hns : needsSyncFlag cfg.force (loadNorm s.store p.pid) p.lastEdited with
  | false =>
      exfalso
      simp only [deltaStepBody, hns] at hfail
      omega
  | true =>
  cases hdry : cfg.dryRun with
  | true =>
      exfalso
      simp only [deltaStepBody, hns, hdry] at hfail
      omega
  | false =>
  match hb : behav p.pid with
  | .transformThrows msg =>
      have heq : deltaStepBody cfg behav p s =
          deltaCatch cfg p (loadNorm s.store p.pid) none msg s := by
        simp only [deltaStepBody, hns, hdry, hb]
      rw [heq] at htrip ⊢
      obtain ⟨h1, h2, _⟩ := deltaCatch_trips cfg p (loadNorm s.store p.pid)
        none msg s hstrict htrip
      exact ⟨h1, by rw [h2]; rfl⟩
  | .writeThrows msg cr =>
      have heq : deltaStepBody cfg behav p s =
          deltaCatch cfg p (loadNorm s.store p.pid) none msg s := by
        simp only [deltaStepBody, hns, hdry, hb]
      rw [heq] at htrip ⊢
      obtain ⟨h1, h2, _⟩ := deltaCatch_trips cfg p (loadNorm s.store p.pid)
        none msg s hstrict htrip
      exact ⟨h1, by rw [h2]; rfl⟩
  | .writeOk gid oldArchive nowMs =>
      match hex : loadNorm s.store p.pid with
      | none =>
          exfalso
          rw [hex] at hns
          simp only [deltaStepBody, hns, hdry, hb, hex] at hfail
          omega
      | some e =>
          match het : e.targetId with
          | none =>
              exfalso
              rw [hex] at hns
              simp only [deltaStepBody, hns, hdry, hb, hex, het] at hfail
              omega
          | some tgt =>
              match harch : oldArchive with
              | none =>
                  exfalso
                  rw [hex] at hns
                  simp only [deltaStepBody, hns, hdry, hb, hex, het] at hfail
                  omega
              | some archMsg =>
                  rw [hex] at hns
                  have heq : deltaStepBody cfg behav p s =
                      deltaCatch cfg p (some e) (some gid) archMsg
                        { s with
                          store := saveMerging s.store
                            (deltaSuccessRecord cfg p.pid gid (histBase (some e) ++
                              [⟨some tgt, e.syncedAt, none, ("Replaced due to drift")⟩]))
                          updated := s.updated + 1
                          fatalInARow := 0
                          archives := s.archives ++ [tgt] } := by
                    simp only [deltaStepBody, hns, hdry, hb, hex, het]
                  rw [heq] at htrip ⊢
                  obtain ⟨h1, h2, _⟩ := deltaCatch_trips cfg p (some e)
                    (some gid) archMsg _ hstrict htrip
                  exact ⟨h1, by rw [h2]; rfl⟩

theorem deltaStep_trips (cfg : DeltaCfg) (behav : String → PageBehavior)
    (p : Page) (s : DeltaState)
    (hstrict : cfg.strictMode = false)
    (hfail : (deltaStep cfg behav p s).failedN = s.failedN + 1)
    (htrip : 3 ≤ (deltaStep cfg behav p s).fatalInARow ∨
      (10 ≤ (deltaStep cfg behav p s).processed ∧
        (deltaStep cfg behav p s).updated +
          (deltaStep cfg behav p s).skippedN +
          (deltaStep cfg behav p s).failedN <
            5 * (deltaStep cfg behav p s).totalFatal)) :
    (deltaStep cfg behav p s).halted = true ∧
    ((deltaStep cfg behav p s).store.lookup p.pid).map
      (fun l => l.status) = some ("fail") := by
  cases honly : cfg.onlyId with
  | none =>
      have heq : deltaStep cfg behav p s = deltaStepBody cfg behav p
          { s with
            processed := s.processed + 1
            processedIds := s.processedIds ++ [p.pid] } := by
        simp only [deltaStep, honly]
      rw [heq] at hfail htrip ⊢
      exact deltaStepBody_trips cfg behav p _ hstrict hfail htrip
  | some i =>
      by_cases hpi : p.pid = i
      · have heq : deltaStep cfg behav p s = deltaStepBody cfg behav p
            { s with
              processed := s.processed + 1
              processedIds := s.processedIds ++ [p.pid] } := by
          simp [deltaStep, honly, hpi]
        rw [heq] at hfail htrip ⊢
        exact deltaStepBody_trips cfg behav p _ hstrict hfail htrip
      · exfalso
        have heq : deltaStep cfg behav p s =
            { s with
              processed := s.processed + 1
              processedIds := s.processedIds ++ [p.pid] } := by
          simp [deltaStep, honly, hpi]
        rw [heq] at hfail
        simp at hfail

/-- Claim C7 (amended): in non-strict mode, whenever a just-recorded
failure brings the consecutive-failure count to 3 or more, or (once at
least 10 records have been processed) makes five times the total failure
count exceed the sum of the updated/skipped/failed outcome counters (the
code's denominator — which can exceed the number of processed records
when one record is counted both updated and failed), the run aborts
before processing any further source record, and the fail record for the
tripping page is persisted before the abort. -/
theorem c7_circuit_breaker_amended (cfg : DeltaCfg) (behav : String → PageBehavior)
    (pages pre post : List Page) (p : Page) (store : Store)
    (hsplit : deltaEligible cfg pages = pre ++ p :: post)
    (hstrict : cfg.strictMode = false)
    (hnothalt : (deltaLoop cfg behav pre (deltaInit store)).halted = false)
    (hfail : (deltaStep cfg behav p (deltaLoop cfg behav pre (deltaInit store))).failedN =
      (deltaLoop cfg behav pre (deltaInit store)).failedN + 1)
    (htrip : 3 ≤ (deltaStep cfg behav p (deltaLoop cfg behav pre (deltaInit store))).fatalInARow ∨
      (10 ≤ (deltaStep cfg behav p (deltaLoop cfg behav pre (deltaInit store))).processed ∧
        (deltaStep cfg behav p (deltaLoop cfg behav pre (deltaInit store))).updated +
          (deltaStep cfg behav p (deltaLoop cfg behav pre (deltaInit store))).skippedN +
          (deltaStep cfg behav p (deltaLoop cfg behav pre (deltaInit store))).failedN <
            5 * (deltaStep cfg behav p (deltaLoop cfg behav pre (deltaInit store))).totalFatal)) :
    (deltaStep cfg behav p (deltaLoop cfg behav pre (deltaInit store))).halted = true ∧
    deltaRun cfg behav pages store =
      deltaStep cfg behav p (deltaLoop cfg behav pre (deltaInit store)) ∧
    ((deltaStep cfg behav p (deltaLoop cfg behav pre (deltaInit store))).store.lookup
        p.pid).map (fun l => l.status) = some ("fail") := by
  obtain ⟨h1, h2⟩ := deltaStep_trips cfg behav p
    (deltaLoop cfg behav pre (deltaInit store)) hstrict hfail htrip
  refine ⟨h1, ?_, h2⟩
  rw [deltaRun, hsplit, deltaLoop_append]
  have hstep : deltaLoop cfg behav (p :: post)
      (deltaLoop cfg behav pre (deltaInit store)) =
      deltaLoop cfg behav post
        (deltaStep cfg behav p (deltaLoop cfg behav pre (deltaInit store))) := by
    simp [deltaLoop, hnothalt]
  rw [hstep]
  exact deltaLoop_halted cfg behav post _ h1

def c7Cfg : DeltaCfg := ⟨200, ("A"), ("B"), ("t"), false, false, false, none⟩

def c7Behav : String → PageBehavior := fun pid =>
  if pid = ("p1") || pid = ("p8") then
    .writeOk (("G") ++ pid) (some ("archive failed")) 300
  else if pid = ("p14") then .transformThrows ("boom")
  else .writeOk (("G") ++ pid) none 300

def c7Pages : List Page := (List.range 15).map (fun i => ⟨("p") ++ toString (i + 1), 100⟩)

def c7Store : Store :=
  [(("p1"), ⟨("p1"), some ("T1"), ("success"), some 0, none, none, none, none, some [], none⟩),
   (("p8"), ⟨("p8"), some ("T8"), ("success"), some 0, none, none, none, none, some [], none⟩)]

/-- Claim C7 as stated is false at this input: after the 14th record's
failure, 14 records have been processed and the failure ratio against
processed records is 3/14 > 20 percent, so the claim demands an abort;
but the code's ratio uses updated+skipped+failed = 16 as denominator
(records p1 and p8 were each counted both updated and failed after their
post-success archive threw), 15 ≤ 16, so the run continues and processes
the 15th record. -/
theorem c7_ratio_denominator_counterexample :
    (10 ≤ (deltaLoop c7Cfg c7Behav (c7Pages.take 14) (deltaInit c7Store)).processed ∧
      (deltaLoop c7Cfg c7Behav (c7Pages.take 14) (deltaInit c7Store)).processed <
        5 * (deltaLoop c7Cfg c7Behav (c7Pages.take 14) (deltaInit c7Store)).totalFatal ∧
      (deltaLoop c7Cfg c7Behav (c7Pages.take 14) (deltaInit c7Store)).halted = false) ∧
    (deltaRun c7Cfg c7Behav c7Pages c7Store).processedIds.contains ("p15") = true ∧
    (deltaRun c7Cfg c7Behav c7Pages c7Store).processed = 15 := by
  decide

def c7wCfg : DeltaCfg := ⟨200, ("A"), ("B"), ("t"), false, false, false, none⟩

def c7wBehav : String → PageBehavior := fun pid =>
  if pid = ("q4") then .writeOk (("G4")) none 300
  else .transformThrows ("outage")

def c7wPages : List Page := [⟨("q1"), 100⟩, ⟨("q2"), 100⟩, ⟨("q3"), 100⟩, ⟨("q4"), 100⟩]

theorem c7_circuit_breaker_amended_witness :
    (deltaStep c7wCfg c7wBehav ⟨("q3"), 100⟩
      (deltaLoop c7wCfg c7wBehav [⟨("q1"), 100⟩, ⟨("q2"), 100⟩] (deltaInit []))).halted = true ∧
    deltaRun c7wCfg c7wBehav c7wPages [] =
      deltaStep c7wCfg c7wBehav ⟨("q3"), 100⟩
        (deltaLoop c7wCfg c7wBehav [⟨("q1"), 100⟩, ⟨("q2"), 100⟩] (deltaInit [])) ∧
    ((deltaStep c7wCfg c7wBehav ⟨("q3"), 100⟩
        (deltaLoop c7wCfg c7wBehav [⟨("q1"), 100⟩, ⟨("q2"), 100⟩] (deltaInit []))).store.lookup
      ("q3")).map (fun l => l.status) = some ("fail") :=
  c7_circuit_breaker_amended c7wCfg c7wBehav c7wPages
    [⟨("q1"), 100⟩, ⟨("q2"), 100⟩] [⟨("q4"), 100⟩] ⟨("q3"), 100⟩ []
    (by decide) (by decide) (by decide) (by decide) (by decide)

/-! ## Claim C8 — the SkipPage convention

The distinguished skip signal is an error whose message starts with
`SkipPage` (checked via `err.message.startsWith('SkipPage')`), modelled
here by a character-list comparison. -/

def strStartsWithAux : List Char → List Char → Bool
  | _, [] => true
  | [], _ :: _ => false
  | c :: cs, d :: ds => c = d && strStartsWithAux cs ds

/-- `s.startsWith(pre)`. -/
def strStartsWith (s pre : String) : Bool := strStartsWithAux s.data pre.data

/-- Per-page behavior in `migrate_tasks.js`: the transform throws, the
write throws, or the write succeeds with `gid`. -/
inductive MigBehavior where
  | transformThrows (msg : String)
  | writeThrows (msg : String)
  | writeOk (gid : String)

structure MigState where
  store : Store
  processed : Nat
  skippedN : Nat
  failedN : Nat
  halted : Bool
deriving DecidableEq

/-- `existing?.status === 'success'`. -/
def alreadyMigrated (e : Option LinkJson) : Bool :=
  match e with
  | some l => l.status = ("success")
  | none => false

def migSuccessRecord (srcDb tgtDb ltype pid gid : String) (now : Nat)
    (hist : List HistEntry) : LinkJson :=
  ⟨pid, some gid, ("success"), some now, some srcDb, some tgtDb, some ltype,
    some (""), some hist, none⟩

def migFailRecord (srcDb tgtDb ltype pid : String) (now : Nat)
    (hist : List HistEntry) : LinkJson :=
  ⟨pid, none, ("fail"), some now, some srcDb, some tgtDb, some ltype,
    some (""), some hist, none⟩

/-- One iteration of the `migrate_tasks.js` main loop (lines 51-135):
skip records already migrated; a write failure is caught by the inner
catch (fail record persisted, loop continues); a transform error whose
message starts with `SkipPage` is counted skipped by the outer catch;
any other transform error increments `failed` and aborts the job. -/
def migrateStep (srcDb tgtDb ltype : String) (now : Nat)
    (behav : String → MigBehavior) (pid : String) (s : MigState) : MigState :=
  match alreadyMigrated (loadNorm s.store pid), behav pid with
  | true, _ => { s with skippedN := s.skippedN + 1, processed := s.processed + 1 }
  | false, .transformThrows msg =>
      if strStartsWith msg ("SkipPage") then { s with skippedN := s.skippedN + 1 }
      else { s with failedN := s.failedN + 1, halted := true }
  | false, .writeThrows _ =>
      { s with
        failedN := s.failedN + 1
        store := saveMerging s.store
          (migFailRecord srcDb tgtDb ltype pid now (histBase (loadNorm s.store pid)))
        processed := s.processed + 1 }
  | false, .writeOk gid =>
      { s with
        store := saveMerging s.store
          (migSuccessRecord srcDb tgtDb ltype pid gid now (histBase (loadNorm s.store pid)))
        processed := s.processed + 1 }

/-- Claim C8 (amended): the SkipPage convention is honored only by the
`migrate_tasks.js` orchestrator — there, a transform error whose message
starts with `SkipPage` is recorded as a skipped outcome (not failed,
nothing persisted, no abort).  The delta-sync Reconciler loop has no
SkipPage handling: a transform error — whatever its message, including a
SkipPage one — is recorded as a failure, increments the circuit
breaker's consecutive-failure and total-failure counters, and persists a
fail record. -/
theorem c8_skip_page_amended :
    (∀ (srcDb tgtDb ltype : String) (now : Nat) (behav : String → MigBehavior)
      (pid : String) (s : MigState) (msg : String),
      behav pid = .transformThrows msg →
      strStartsWith msg ("SkipPage") = true →
      alreadyMigrated (loadNorm s.store pid) = false →
      migrateStep srcDb tgtDb ltype now behav pid s =
        { s with skippedN := s.skippedN + 1 }) ∧
    (∀ (cfg : DeltaCfg) (behav : String → PageBehavior) (p : Page)
      (s : DeltaState) (msg : String),
      cfg.onlyId = none → cfg.dryRun = false →
      needsSyncFlag cfg.force (loadNorm s.store p.pid) p.lastEdited = true →
      behav p.pid = .transformThrows msg →
      (deltaStep cfg behav p s).failedN = s.failedN + 1 ∧
      (deltaStep cfg behav p s).fatalInARow = s.fatalInARow + 1 ∧
      (deltaStep cfg behav p s).totalFatal = s.totalFatal + 1 ∧
      (deltaStep cfg behav p s).skippedN = s.skippedN ∧
      ((deltaStep cfg behav p s).store.lookup p.pid).map (fun l => l.status) =
        some ("fail")) := by
  constructor
  · intro srcDb tgtDb ltype now behav pid s msg hb hskip halready
    simp only [migrateStep, halready, hb, hskip, if_true]
  · intro cfg behav p s msg honly hdry hns hb
    have heq : deltaStep cfg behav p s =
        deltaCatch cfg p (loadNorm s.store p.pid) none msg
          { s with
            processed := s.processed + 1
            processedIds := s.processedIds ++ [p.pid] } := by
      simp only [deltaStep, honly, deltaStepBody, hns, hdry, hb]
    rw [heq]
    have hrec : (deltaFailRecord cfg p.pid none msg (loadNorm s.store p.pid)).history =
        some (histBase (loadNorm s.store p.pid)) := rfl
    have hkey : (deltaFailRecord cfg p.pid none msg (loadNorm s.store p.pid)).sourceId =
        p.pid := rfl
    by_cases hsm : cfg.strictMode = true <;>
      refine ⟨by simp [deltaCatch, hsm], by simp [deltaCatch, hsm],
        by simp [deltaCatch, hsm], by simp [deltaCatch, hsm], ?_⟩ <;>
      · simp only [deltaCatch, hsm, Bool.false_eq_true, if_true, if_false]
        rw [saveMerging_of_some _ _ _ hrec, hkey, Store.lookup_set_same]
        rfl

def c8Cfg : DeltaCfg := ⟨200, ("A"), ("B"), ("t"), false, false, false, none⟩

def c8Behav : String → PageBehavior :=
  fun _ => .transformThrows ("SkipPage: deliberately skipped")

/-- Claim C8 as stated is false at this input: in the delta-sync
Reconciler loop, a record whose transform throws the distinguished
skip-page error is recorded as failed (not skipped), both circuit-breaker
counters are incremented, and a fail record is persisted. -/
theorem c8_skip_page_counted_as_failure_counterexample :
    (deltaRun c8Cfg c8Behav [⟨("r1"), 100⟩] []).failedN = 1 ∧
    (deltaRun c8Cfg c8Behav [⟨("r1"), 100⟩] []).skippedN = 0 ∧
    (deltaRun c8Cfg c8Behav [⟨("r1"), 100⟩] []).fatalInARow = 1 ∧
    (deltaRun c8Cfg c8Behav [⟨("r1"), 100⟩] []).totalFatal = 1 ∧
    ((deltaRun c8Cfg c8Behav [⟨("r1"), 100⟩] []).store.lookup ("r1")).map
      (fun l => l.status) = some ("fail") := by
  decide

def c8wMig : String → MigBehavior :=
  fun _ => .transformThrows ("SkipPage: no title")

def c8wDelta : String → PageBehavior :=
  fun _ => .transformThrows ("SkipPage: no title")

theorem c8_skip_page_amended_witness :
    (migrateStep ("A") ("B") ("t") 5 c8wMig ("m1") ⟨[], 0, 0, 0, false⟩ =
      { (⟨[], 0, 0, 0, false⟩ : MigState) with skippedN := 1 }) ∧
    ((deltaStep c8Cfg c8wDelta ⟨("r2"), 100⟩ (deltaInit [])).failedN = 1 ∧
     (deltaStep c8Cfg c8wDelta ⟨("r2"), 100⟩ (deltaInit [])).fatalInARow = 1 ∧
     (deltaStep c8Cfg c8wDelta ⟨("r2"), 100⟩ (deltaInit [])).totalFatal = 1 ∧
     (deltaStep c8Cfg c8wDelta ⟨("r2"), 100⟩ (deltaInit [])).skippedN = 0 ∧
     ((deltaStep c8Cfg c8wDelta ⟨("r2"), 100⟩ (deltaInit [])).store.lookup
        ("r2")).map (fun l => l.status) = some ("fail")) :=
  ⟨c8_skip_page_amended.1 ("A") ("B") ("t") 5 c8wMig ("m1") ⟨[], 0, 0, 0, false⟩
      ("SkipPage: no title") rfl (by decide) (by decide),
   c8_skip_page_amended.2 c8Cfg c8wDelta ⟨("r2"), 100⟩ (deltaInit [])
      ("SkipPage: no title") rfl rfl (by decide) rfl⟩

end NTM
